import Mathlib

/-
  Shallow embedding of `src/task_tracker/main.py`, a FastAPI service exposing
  CRUD operations over a task list stored in a remote JSON bin, with optional
  AI enrichment of new task titles.

  External collaborators (the JSON store and the AI endpoint) are modelled by
  the response each request to them yields: a transport failure, a body that
  is not JSON, or a JSON value.  Python-level behaviour (dict.get defaults,
  truthiness, uncaught exceptions becoming HTTP 500) is translated faithfully,
  as are pydantic v1's lax field coercions: an `int` field accepts ints,
  bools and integer-literal strings (Python `int(str)` rules: optional sign,
  underscores between digits, surrounding whitespace), and a `str` field
  accepts strings, numbers and bools.  JSON numbers are restricted to
  integers, and whitespace/digits to their ASCII forms.
-/

namespace TaskTracker

/-- JSON values as produced by Python's `json` module (numbers restricted to
integers; no claim touches fractional numbers). Objects are association lists
with distinct keys after Python's JSON parsing; lookup takes the first hit. -/
inductive Json where
  | null
  | bool (b : Bool)
  | num (n : Int)
  | str (s : String)
  | arr (xs : List Json)
  | obj (fields : List (String × Json))

/-- The `Task` pydantic model: `{id: int, title: str, status: str}`. -/
structure Task where
  id : Int
  title : String
  status : String
deriving DecidableEq, Repr

/-- The `TaskCreate` pydantic model (no id; assigned server-side). -/
structure TaskCreate where
  title : String
  status : String
deriving DecidableEq, Repr

/-- The `TaskUpdate` pydantic model. -/
structure TaskUpdate where
  title : String
  status : String
deriving DecidableEq, Repr

/-- Python truthiness of an optional JSON value, as used by
`result.get("success")`: a missing key yields `None`, which is falsy. -/
def truthy : Option Json → Bool
  | none => false
  | some .null => false
  | some (.bool b) => b
  | some (.num n) => n != 0
  | some (.str s) => !(s == "")
  | some (.arr xs) => !xs.isEmpty
  | some (.obj fs) => !fs.isEmpty

/-- Value of an ASCII decimal digit. -/
def digitVal (c : Char) : Option Nat :=
  if '0' ≤ c ∧ c ≤ '9' then some (c.toNat - '0'.toNat) else none

/-- Digits of a Python integer literal after the first: a run of digits with
single underscores allowed only between digits (`int("1_0")` is 10, while
`int("1__0")` and `int("1_")` raise `ValueError`). -/
def pyDigitsAux : List Char → Nat → Option Nat
  | [], acc => some acc
  | '_' :: c :: cs, acc =>
    match digitVal c with
    | some d => pyDigitsAux cs (acc * 10 + d)
    | none => none
  | ['_'], _ => none
  | c :: cs, acc =>
    match digitVal c with
    | some d => pyDigitsAux cs (acc * 10 + d)
    | none => none

/-- An unsigned Python integer literal: a non-empty digit run, underscores
between digits. -/
def pyIntLitDigits : List Char → Option Nat
  | [] => none
  | c :: cs =>
    match digitVal c with
    | some d => pyDigitsAux cs d
    | none => none

/-- A Python integer literal after stripping: an optional sign followed by
an unsigned literal. -/
def pyIntOfChars : List Char → Option Int
  | [] => none
  | '+' :: cs => (pyIntLitDigits cs).map (fun n => (n : Int))
  | '-' :: cs => (pyIntLitDigits cs).map (fun n => -(n : Int))
  | cs => (pyIntLitDigits cs).map (fun n => (n : Int))

/-- Surrounding-whitespace strip, as Python's `int(str)` performs before
parsing the literal. -/
def pyStripChars (cs : List Char) : List Char :=
  ((cs.dropWhile Char.isWhitespace).reverse.dropWhile Char.isWhitespace).reverse

/-- Python's `int(s)` on a string: strip surrounding whitespace, then parse
a signed integer literal; `none` when `int` raises `ValueError`. -/
def pyInt (s : String) : Option Int :=
  pyIntOfChars (pyStripChars s.toList)

/-- pydantic v1 validation of an `int` field from a JSON value: ints pass
through, bools coerce via `int(True) == 1`, strings via `int(str)`;
`None`, lists and dicts raise. -/
def pyToInt : Json → Option Int
  | .num n => some n
  | .bool b => some (if b then 1 else 0)
  | .str s => pyInt s
  | _ => none

/-- pydantic v1 validation of a `str` field from a JSON value: strings pass
through, numbers and bools coerce via `str(v)` (`str(True) == "True"`);
`None`, lists and dicts raise. -/
def pyToStr : Json → Option String
  | .str s => some s
  | .num n => some (toString n)
  | .bool b => some (if b then "True" else "False")
  | _ => none

/-- `Task(**task)`: `task` must be a JSON object (extra keys are ignored by
pydantic v1's default config) whose `id` validates as an int and whose
`title`/`status` validate as strs under the lax coercions above. -/
def parseTask : Json → Option Task
  | .obj fields =>
    match fields.lookup "id", fields.lookup "title", fields.lookup "status" with
    | some jid, some jtitle, some jstatus =>
      match pyToInt jid, pyToStr jtitle, pyToStr jstatus with
      | some i, some t, some s => some ⟨i, t, s⟩
      | _, _, _ => none
    | _, _, _ => none
  | _ => none

/-- One pass of `[Task(**task) for task in task_data]`: every element must
parse as a Task, or the whole comprehension raises. -/
def parseTasks : List Json → Option (List Task)
  | [] => some []
  | x :: xs =>
    match parseTask x, parseTasks xs with
    | some t, some ts => some (t :: ts)
    | _, _ => none

/-- `[Task(**task) for task in task_data]`: the record must be a JSON array
each of whose elements parses as a Task; any other shape raises in Python. -/
def parseTaskList : Json → Option (List Task)
  | .arr xs => parseTasks xs
  | _ => none

/-- Outcome of one HTTP request to the remote store, as seen by the client. -/
inductive StoreResp where
  | transportFail
  | notJson
  | jsonVal (v : Json)

/-- Errors a handler can surface, each carrying a fixed HTTP status. -/
inductive Err where
  | storageUnavailable
  | storageCorrupt
  | notFound
  | internal
deriving DecidableEq, Repr

/-- HTTP status of each error: `HTTPException(503)` raised by
`_make_request`, `HTTPException(500)` raised by `read_tasks` on
`json.JSONDecodeError`, `HTTPException(404)`, and the generic 500 FastAPI
serves for an uncaught Python exception. -/
def Err.status : Err → Nat
  | .storageUnavailable => 503
  | .storageCorrupt => 500
  | .notFound => 404
  | .internal => 500

/-- `TaskFileManager.read_tasks`: transport failure propagates the 503
`HTTPException` from `_make_request`; a non-JSON body raises
`json.JSONDecodeError`, caught and turned into a 500; on JSON, Python runs
`data.get("record", [])` (an `AttributeError` on a non-object escapes the
`except json.JSONDecodeError` clause, hence a generic 500) and builds the
task list (a pydantic `ValidationError` or `TypeError` likewise escapes). -/
def read_tasks : StoreResp → Except Err (List Task)
  | .transportFail => .error .storageUnavailable
  | .notJson => .error .storageCorrupt
  | .jsonVal v =>
    match v with
    | .obj fields =>
      match parseTaskList ((fields.lookup "record").getD (.arr [])) with
      | some ts => .ok ts
      | none => .error .internal
    | _ => .error .internal

/-- Serialization of a Task as `task.dict()` produces it. -/
def encodeTask (t : Task) : Json :=
  .obj [("id", .num t.id), ("title", .str t.title), ("status", .str t.status)]

/-- A well-formed store response holding exactly the list `tasks`, in the
shape jsonbin.io returns: `{"record": [...]}`. -/
def storeOf (tasks : List Task) : StoreResp :=
  .jsonVal (.obj [("record", .arr (tasks.map encodeTask))])

theorem parseTask_encodeTask (t : Task) : parseTask (encodeTask t) = some t := by
  cases t
  simp [parseTask, encodeTask, List.lookup, pyToInt, pyToStr]

theorem read_tasks_storeOf (tasks : List Task) :
    read_tasks (storeOf tasks) = .ok tasks := by
  have h : parseTasks (tasks.map encodeTask) = some tasks := by
    induction tasks with
    | nil => rfl
    | cons t ts ih =>
      simp [parseTasks, parseTask_encodeTask, ih]
  simp [read_tasks, storeOf, List.lookup, parseTaskList, h]

/-- Outcome of the one HTTP request to the Cloudflare AI endpoint. -/
inductive AIResp where
  | transportFail
  | notJson
  | jsonVal (v : Json)

/-- Does a Python `"response" in x` / `x["response"]` sequence crash?  Used
below for `result["result"]`: membership on a string is a substring test, on
a list an element test; subscripting a non-dict with a string raises. -/
def strOccursIn (pat s : String) : Bool :=
  !((s.splitOn pat).length == 1)

/-- `CloudflareAIManager.get_solution_for_task`, as a function of the AI
endpoint's response.  A 503 `HTTPException` from `_make_request` and a
`json.JSONDecodeError` are caught and yield `""`.  On a JSON body `result`,
Python evaluates `result.get("success") and "result" in result and
"response" in result["result"]` left to right; when it holds it returns
`result["result"]["response"].strip()`.  An `AttributeError`/`TypeError`
raised along the way (non-dict body, `result["result"]` unsubscriptable, or
a non-string `response`) is not caught: `.error ()` marks that uncaught
exception (FastAPI serves it as a generic 500). -/
def get_solution_for_task : AIResp → Except Unit String
  | .transportFail => .ok ""
  | .notJson => .ok ""
  | .jsonVal v =>
    match v with
    | .obj fields =>
      if truthy (fields.lookup "success") then
        match fields.lookup "result" with
        | none => .ok ""
        | some rv =>
          match rv with
          | .obj rfs =>
            match rfs.lookup "response" with
            | none => .ok ""
            | some (.str s) => .ok s.trim
            | some _ => .error ()
          | .arr xs =>
            if xs.any (fun x => match x with | .str s => s == "response" | _ => false)
            then .error () else .ok ""
          | .str s => if strOccursIn "response" s then .error () else .ok ""
          | _ => .error ()
      else .ok ""
    | _ => .error ()

/-- `create_task`'s title enrichment: `if solution:` appends the suggestion
under a fixed separator header, otherwise the title is kept as is. -/
def enrich (title solution : String) : String :=
  if solution == "" then title
  else title ++ "\n\n--- AI Suggested Steps ---\n" ++ solution

/-- `max([t.id for t in tasks])` for a non-empty list (0 for the empty list,
on which Python's `max` is never called thanks to the conditional). -/
def maxId : List Task → Int
  | [] => 0
  | t :: ts => ts.foldl (fun m u => max m u.id) t.id

/-- `new_id = max([t.id for t in tasks]) + 1 if tasks else 1`. -/
def new_id (tasks : List Task) : Int :=
  if tasks.isEmpty then 1 else maxId tasks + 1

/-- The in-memory mutation of `create_task` once the enrichment `solution`
is known and the list has been read: build the new Task and append it.
Returns the task `create_task` returns, and the list it writes back. -/
def create_core (t : TaskCreate) (solution : String) (tasks : List Task) :
    Task × List Task :=
  let nt : Task := ⟨new_id tasks, enrich t.title solution, t.status⟩
  (nt, tasks ++ [nt])

/-- The in-memory mutation of `update_task`: replace the first task whose id
matches, in place; `none` when no task matches (the loop falls through to
`raise HTTPException(404)`).  Returns the replaced task and the new list. -/
def update_core (task_id : Int) (u : TaskUpdate) : List Task → Option (Task × List Task)
  | [] => none
  | t :: ts =>
    if t.id == task_id then
      some (⟨task_id, u.title, u.status⟩, ⟨task_id, u.title, u.status⟩ :: ts)
    else
      match update_core task_id u ts with
      | some (nt, rest) => some (nt, t :: rest)
      | none => none

/-- The in-memory mutation of `delete_task`: `next((t for t in tasks if
t.id == task_id), None)` finds the first match, `tasks.remove(found)`
removes the first element equal to it (pydantic models compare by fields);
`none` when no task matches. -/
def delete_core (task_id : Int) (tasks : List Task) : Option (List Task) :=
  match tasks.find? (fun t => t.id == task_id) with
  | none => none
  | some t => some (tasks.erase t)

/-- `GET /tasks`: returns `read_tasks()` and performs no write.  The second
component of every handler's result is the single `write_tasks` call the
handler performed, when it performed one. -/
def get_tasks (resp : StoreResp) : Except Err (List Task) × Option (List Task) :=
  (read_tasks resp, none)

/-- `POST /tasks`: calls the AI first (an uncaught exception there aborts
the request with a generic 500 before any storage access), then reads the
list, appends the new task and writes the whole list back. -/
def create_task (t : TaskCreate) (ai : AIResp) (resp : StoreResp) :
    Except Err Task × Option (List Task) :=
  match get_solution_for_task ai with
  | .error _ => (.error .internal, none)
  | .ok solution =>
    match read_tasks resp with
    | .error e => (.error e, none)
    | .ok tasks =>
      let r := create_core t solution tasks
      (.ok r.1, some r.2)

/-- `PUT /tasks/\x7btask_id\x7d`: read, replace the first match in place and
write back, or 404 without writing. -/
def update_task (task_id : Int) (u : TaskUpdate) (resp : StoreResp) :
    Except Err Task × Option (List Task) :=
  match read_tasks resp with
  | .error e => (.error e, none)
  | .ok tasks =>
    match update_core task_id u tasks with
    | some r => (.ok r.1, some r.2)
    | none => (.error .notFound, none)

/-- `DELETE /tasks/\x7btask_id\x7d`: read, remove the first match and write
back (returning the confirmation message), or 404 without writing. -/
def delete_task (task_id : Int) (resp : StoreResp) :
    Except Err String × Option (List Task) :=
  match read_tasks resp with
  | .error e => (.error e, none)
  | .ok tasks =>
    match delete_core task_id tasks with
    | some newTasks => (.ok "Task deleted successfully", some newTasks)
    | none => (.error .notFound, none)

/-- The stored list after a handler ran: the single write it performed, or
the previous contents when it performed none. -/
def after (stored : List Task) (w : Option (List Task)) : List Task :=
  w.getD stored

/-- A fold of `max` over ids dominates its seed and every folded id. -/
theorem foldl_max_bounds (ts : List Task) (a : Int) :
    a ≤ ts.foldl (fun m u => max m u.id) a ∧
    ∀ u ∈ ts, u.id ≤ ts.foldl (fun m u => max m u.id) a := by
  induction ts generalizing a with
  | nil => exact ⟨le_refl a, by simp⟩
  | cons v ts ih =>
    simp only [List.foldl_cons]
    have h := ih (max a v.id)
    refine ⟨le_trans (le_max_left a v.id) h.1, ?_⟩
    intro u hu
    rcases List.mem_cons.mp hu with h1 | h2
    · subst h1; exact le_trans (le_max_right a u.id) h.1
    · exact h.2 u h2

/-- A fold of `max` over ids is its seed or one of the folded ids. -/
theorem foldl_max_attained (ts : List Task) (a : Int) :
    ts.foldl (fun m u => max m u.id) a = a ∨
    ∃ u ∈ ts, ts.foldl (fun m u => max m u.id) a = u.id := by
  induction ts generalizing a with
  | nil => exact Or.inl rfl
  | cons v ts ih =>
    simp only [List.foldl_cons]
    rcases ih (max a v.id) with h | ⟨u, hu, he⟩
    · rcases le_total a v.id with hle | hle
      · exact Or.inr ⟨v, List.mem_cons_self v ts, by rw [h, max_eq_right hle]⟩
      · exact Or.inl (by rw [h, max_eq_left hle])
    · exact Or.inr ⟨u, List.mem_cons_of_mem v hu, he⟩

/-- Every id in the list is at most `maxId`. -/
theorem le_maxId {tasks : List Task} {u : Task} (h : u ∈ tasks) :
    u.id ≤ maxId tasks := by
  cases tasks with
  | nil => cases h
  | cons t ts =>
    rcases List.mem_cons.mp h with h1 | h2
    · subst h1; exact (foldl_max_bounds ts u.id).1
    · exact (foldl_max_bounds ts t.id).2 u h2

/-- On a non-empty list, `maxId` is the id of one of its members. -/
theorem maxId_attained {tasks : List Task} (h : tasks ≠ []) :
    ∃ u ∈ tasks, maxId tasks = u.id := by
  cases tasks with
  | nil => exact absurd rfl h
  | cons t ts =>
    rcases foldl_max_attained ts t.id with h1 | ⟨u, hu, he⟩
    · exact ⟨t, List.mem_cons_self t ts, h1⟩
    · exact ⟨u, List.mem_cons_of_mem t hu, he⟩

/-- The freshly assigned id is strictly above every id already present. -/
theorem id_lt_new_id {tasks : List Task} {u : Task} (h : u ∈ tasks) :
    u.id < new_id tasks := by
  have hne : tasks.isEmpty = false := by
    cases tasks with
    | nil => cases h
    | cons t ts => rfl
  rw [new_id, hne]
  simpa using lt_of_le_of_lt (le_maxId h) (lt_add_one (maxId tasks))

/-- The update loop falls through when no task has the requested id. -/
theorem update_core_eq_none {task_id : Int} {u : TaskUpdate} {tasks : List Task}
    (h : ∀ t ∈ tasks, t.id ≠ task_id) : update_core task_id u tasks = none := by
  induction tasks with
  | nil => rfl
  | cons t ts ih =>
    have ht : (t.id == task_id) = false :=
      beq_eq_false_iff_ne.mpr (h t (List.mem_cons_self t ts))
    simp [update_core, ht, ih (fun x hx => h x (List.mem_cons_of_mem t hx))]

/-- `find?` on a Task list yields a member satisfying the predicate. -/
theorem find?_spec {p : Task → Bool} :
    ∀ {l : List Task} {t0 : Task}, l.find? p = some t0 → t0 ∈ l ∧ p t0 = true := by
  intro l
  induction l with
  | nil => intro t0 h; simp [List.find?] at h
  | cons a ts ih =>
    intro t0 h
    by_cases hp : p a = true
    · rw [List.find?_cons_of_pos ts hp] at h
      injection h with h
      subst h
      exact ⟨List.mem_cons_self a ts, hp⟩
    · rw [List.find?_cons_of_neg ts (by simpa using hp)] at h
      obtain ⟨hmem, hpt⟩ := ih h
      exact ⟨List.mem_cons_of_mem a hmem, hpt⟩

/-- Removing a member whose id is `task_id` from a list with pairwise
distinct ids leaves no task with that id. -/
theorem erase_id_free {task_id : Int} :
    ∀ (l : List Task) (t0 : Task), (l.map Task.id).Nodup → t0 ∈ l →
      t0.id = task_id → ∀ x ∈ l.erase t0, x.id ≠ task_id := by
  intro l
  induction l with
  | nil => intro t0 _ h0; cases h0
  | cons a ts ih =>
    intro t0 hnd h0 ht0 x hx
    rw [List.map_cons, List.nodup_cons] at hnd
    by_cases hab : a = t0
    · rw [List.erase_cons, if_pos (by rw [hab]; exact beq_self_eq_true t0)] at hx
      intro hxid
      exact hnd.1 (by
        rw [hab, ht0, ← hxid]
        exact List.mem_map_of_mem Task.id hx)
    · rw [List.erase_cons,
        if_neg (by simpa using fun he => hab he)] at hx
      have h0' : t0 ∈ ts := by
        rcases List.mem_cons.mp h0 with h | h
        · exact absurd h.symm hab
        · exact h
      rcases List.mem_cons.mp hx with h | h
      · subst h
        intro hxid
        exact hnd.1 (by
          rw [hxid, ← ht0]
          exact List.mem_map_of_mem Task.id h0')
      · exact ih t0 hnd.2 h0' ht0 x h

/-- When the delete handler finds a task, the written list has no task with
the requested id, provided ids were pairwise distinct. -/
theorem delete_core_no_id {task_id : Int} {tasks newTasks : List Task}
    (hnd : (tasks.map Task.id).Nodup)
    (hdel : delete_core task_id tasks = some newTasks) :
    ∀ t ∈ newTasks, t.id ≠ task_id := by
  rw [delete_core] at hdel
  cases hfind : tasks.find? (fun t => t.id == task_id) with
  | none => rw [hfind] at hdel; cases hdel
  | some t0 =>
    rw [hfind] at hdel
    injection hdel with hdel
    subst hdel
    obtain ⟨hmem, hbeq⟩ := find?_spec hfind
    exact erase_id_free tasks t0 hnd hmem (by simpa using hbeq)

/-- Folding `create_core` over a list of (input, AI suggestion) pairs: the
stored list after the requests. -/
def run_creates : List (TaskCreate × String) → List Task → List Task
  | [], tasks => tasks
  | p :: ps, tasks => run_creates ps (create_core p.1 p.2 tasks).2

/-- The tasks the same requests return, in creation order. -/
def run_creates_ret : List (TaskCreate × String) → List Task → List Task
  | [], _ => []
  | p :: ps, tasks =>
    (create_core p.1 p.2 tasks).1 :: run_creates_ret ps (create_core p.1 p.2 tasks).2

/-- Each create appends exactly the task it returns, so the final stored
list is the initial one followed by the returned tasks. -/
theorem run_creates_eq_append (inps : List (TaskCreate × String)) :
    ∀ tasks, run_creates inps tasks = tasks ++ run_creates_ret inps tasks := by
  induction inps with
  | nil => intro tasks; simp [run_creates, run_creates_ret]
  | cons p ps ih =>
    intro tasks
    rw [run_creates, run_creates_ret, ih]
    simp [create_core]

/-- One create preserves strict increase of the stored ids. -/
theorem pairwise_create_core (t : TaskCreate) (sol : String) {tasks : List Task}
    (h : (tasks.map Task.id).Pairwise (· < ·)) :
    (((create_core t sol tasks).2).map Task.id).Pairwise (· < ·) := by
  simp only [create_core, List.map_append, List.map_cons, List.map_nil]
  rw [List.pairwise_append]
  refine ⟨h, List.pairwise_singleton _ _, ?_⟩
  intro x hx y hy
  obtain ⟨u, hu, rfl⟩ := List.mem_map.mp hx
  have hy' : y = new_id tasks := by simpa using hy
  rw [hy']
  exact id_lt_new_id hu

/-- Strict increase of the stored ids is preserved by any create run. -/
theorem pairwise_run_creates (inps : List (TaskCreate × String)) :
    ∀ {tasks : List Task}, (tasks.map Task.id).Pairwise (· < ·) →
      ((run_creates inps tasks).map Task.id).Pairwise (· < ·) := by
  induction inps with
  | nil => intro tasks h; exact h
  | cons p ps ih =>
    intro tasks h
    exact ih (pairwise_create_core p.1 p.2 h)

/-- Claim C1: for every stored task list, Create assigns the new task the id
`max(existing ids) + 1` (or 1 when the list is empty), appends the new task
at the end of the list, writes the full list back, and returns exactly the
appended task. -/
theorem create_assigns_max_plus_one (t : TaskCreate) (sol : String)
    (ai : AIResp) (resp : StoreResp) (tasks : List Task)
    (hai : get_solution_for_task ai = .ok sol)
    (hread : read_tasks resp = .ok tasks) :
    create_task t ai resp =
      (.ok ⟨new_id tasks, enrich t.title sol, t.status⟩,
       some (tasks ++ [⟨new_id tasks, enrich t.title sol, t.status⟩])) ∧
    (tasks = [] → new_id tasks = 1) ∧
    (tasks ≠ [] →
      (∀ u ∈ tasks, u.id < new_id tasks) ∧
      ∃ u ∈ tasks, new_id tasks = u.id + 1) := by
  refine ⟨?_, ?_, ?_⟩
  · simp [create_task, hai, hread, create_core]
  · intro h; subst h; rfl
  · intro h
    refine ⟨fun u hu => id_lt_new_id hu, ?_⟩
    obtain ⟨u, hu, he⟩ := maxId_attained h
    refine ⟨u, hu, ?_⟩
    have hie : tasks.isEmpty = false := by
      cases tasks with
      | nil => exact absurd rfl h
      | cons a l => rfl
    rw [new_id, hie, he]
    simp

theorem create_assigns_max_plus_one_witness :
    create_task ⟨"T", "todo"⟩ .transportFail (storeOf [⟨5, "x", "s"⟩]) =
      (.ok ⟨6, "T", "todo"⟩, some [⟨5, "x", "s"⟩, ⟨6, "T", "todo"⟩]) :=
  (create_assigns_max_plus_one ⟨"T", "todo"⟩ "" .transportFail
    (storeOf [⟨5, "x", "s"⟩]) [⟨5, "x", "s"⟩] rfl rfl).1

/-- Claim C2: for every finite sequence of Create operations starting from
the empty stored list, the ids assigned to the created tasks are strictly
increasing in creation order, and all ids in the resulting stored list are
pairwise distinct. -/
theorem create_run_ids_strictly_increasing (inps : List (TaskCreate × String)) :
    ((run_creates_ret inps []).map Task.id).Pairwise (· < ·) ∧
    ((run_creates inps []).map Task.id).Nodup := by
  have hs : ((run_creates inps []).map Task.id).Pairwise (· < ·) :=
    pairwise_run_creates inps (by simp)
  have he : run_creates inps [] = run_creates_ret inps [] := by
    simpa using run_creates_eq_append inps []
  exact ⟨he ▸ hs, hs.imp fun hab => ne_of_lt hab⟩

/-- Claim C3: for every stored task list and every id that matches no task
in it, Update fails with NotFound (404) and Delete fails with NotFound
(404), and neither performs a write, so the stored list is unchanged. -/
theorem unknown_id_not_found_no_write (task_id : Int) (u : TaskUpdate)
    (resp : StoreResp) (tasks : List Task)
    (hread : read_tasks resp = .ok tasks)
    (habs : ∀ t ∈ tasks, t.id ≠ task_id) :
    update_task task_id u resp = (.error .notFound, none) ∧
    delete_task task_id resp = (.error .notFound, none) ∧
    after tasks (update_task task_id u resp).2 = tasks ∧
    after tasks (delete_task task_id resp).2 = tasks ∧
    Err.notFound.status = 404 := by
  have hu : update_core task_id u tasks = none := update_core_eq_none habs
  have hfind : tasks.find? (fun t => t.id == task_id) = none := by
    cases hf : tasks.find? (fun t => t.id == task_id) with
    | none => rfl
    | some t0 =>
      obtain ⟨hmem, hbeq⟩ := find?_spec hf
      exact absurd (by simpa using hbeq) (habs t0 hmem)
  have h1 : update_task task_id u resp = (.error .notFound, none) := by
    simp [update_task, hread, hu]
  have h2 : delete_task task_id resp = (.error .notFound, none) := by
    simp [delete_task, delete_core, hread, hfind]
  exact ⟨h1, h2, by rw [h1]; rfl, by rw [h2]; rfl, rfl⟩

theorem unknown_id_not_found_no_write_witness :
    update_task 7 ⟨"t", "s"⟩ (storeOf [⟨1, "a", "s"⟩]) = (.error .notFound, none) ∧
    delete_task 7 (storeOf [⟨1, "a", "s"⟩]) = (.error .notFound, none) ∧
    after [⟨1, "a", "s"⟩] (update_task 7 ⟨"t", "s"⟩ (storeOf [⟨1, "a", "s"⟩])).2 =
      [⟨1, "a", "s"⟩] ∧
    after [⟨1, "a", "s"⟩] (delete_task 7 (storeOf [⟨1, "a", "s"⟩])).2 =
      [⟨1, "a", "s"⟩] ∧
    Err.notFound.status = 404 :=
  unknown_id_not_found_no_write 7 ⟨"t", "s"⟩ (storeOf [⟨1, "a", "s"⟩])
    [⟨1, "a", "s"⟩] rfl (by decide)

/-- Claim C7: starting from the empty stored list, with the AI collaborator
returning no suggestion: Create A yields id 1, Create B yields id 2,
Update 1 yields Task 1/"A2"/"done", Delete 2 yields the confirmation, and
List then returns exactly the updated task 1. -/
theorem crud_scenario :
    create_task ⟨"A", "todo"⟩ .transportFail (storeOf []) =
      (.ok ⟨1, "A", "todo"⟩, some [⟨1, "A", "todo"⟩]) ∧
    create_task ⟨"B", "todo"⟩ .transportFail (storeOf [⟨1, "A", "todo"⟩]) =
      (.ok ⟨2, "B", "todo"⟩, some [⟨1, "A", "todo"⟩, ⟨2, "B", "todo"⟩]) ∧
    update_task 1 ⟨"A2", "done"⟩ (storeOf [⟨1, "A", "todo"⟩, ⟨2, "B", "todo"⟩]) =
      (.ok ⟨1, "A2", "done"⟩, some [⟨1, "A2", "done"⟩, ⟨2, "B", "todo"⟩]) ∧
    delete_task 2 (storeOf [⟨1, "A2", "done"⟩, ⟨2, "B", "todo"⟩]) =
      (.ok "Task deleted successfully", some [⟨1, "A2", "done"⟩]) ∧
    get_tasks (storeOf [⟨1, "A2", "done"⟩]) = (.ok [⟨1, "A2", "done"⟩], none) :=
  ⟨rfl, rfl, rfl, rfl, rfl⟩

/-- Claim C10: List (GET /tasks) never writes to storage; it returns the
read list verbatim and the stored list stays exactly what it was. -/
theorem list_reads_only (resp : StoreResp) (tasks : List Task)
    (hread : read_tasks resp = .ok tasks) :
    get_tasks resp = (.ok tasks, none) ∧
    after tasks (get_tasks resp).2 = tasks :=
  ⟨by simp [get_tasks, hread], rfl⟩

theorem list_reads_only_witness :
    get_tasks (storeOf [⟨1, "a", "s"⟩]) = (.ok [⟨1, "a", "s"⟩], none) ∧
    after [⟨1, "a", "s"⟩] (get_tasks (storeOf [⟨1, "a", "s"⟩])).2 = [⟨1, "a", "s"⟩] :=
  list_reads_only (storeOf [⟨1, "a", "s"⟩]) [⟨1, "a", "s"⟩] rfl

/-- `find?` returning nothing means no element satisfies the predicate. -/
theorem find?_none_spec {p : Task → Bool} :
    ∀ {l : List Task}, l.find? p = none → ∀ x ∈ l, p x = false := by
  intro l
  induction l with
  | nil => intro _ x hx; cases hx
  | cons a ts ih =>
    intro h x hx
    by_cases hp : p a = true
    · rw [List.find?_cons_of_pos ts hp] at h; cases h
    · have hpa : p a = false := by simpa using hp
      rw [List.find?_cons_of_neg ts (by simp [hpa])] at h
      rcases List.mem_cons.mp hx with h1 | h2
      · subst h1; exact hpa
      · exact ih h x h2

/-- Claim C4 as literally stated is false: on a stored list with duplicate
ids (reachable, since storage contents are arbitrary), Delete removes only
the first task with the requested id, and List still returns the id.  Here
the stored list is `[{id 1, "a"}, {id 1, "b"}]` and Delete 1 succeeds, yet
List afterwards returns `[{id 1, "b"}]`. -/
theorem delete_then_list_counterexample :
    (delete_task 1 (storeOf [⟨1, "a", "todo"⟩, ⟨1, "b", "todo"⟩])).1 =
      .ok "Task deleted successfully" ∧
    (after [⟨1, "a", "todo"⟩, ⟨1, "b", "todo"⟩]
      (delete_task 1 (storeOf [⟨1, "a", "todo"⟩, ⟨1, "b", "todo"⟩])).2).map Task.id
      = [1] ∧
    (get_tasks (storeOf (after [⟨1, "a", "todo"⟩, ⟨1, "b", "todo"⟩]
      (delete_task 1 (storeOf [⟨1, "a", "todo"⟩, ⟨1, "b", "todo"⟩])).2))).1 =
      .ok [⟨1, "b", "todo"⟩] :=
  ⟨rfl, rfl, rfl⟩

/-- Claim C4 (amended): for every stored task list whose ids are pairwise
distinct and every id present in it, after a successful Delete of that id
the list returned by List contains no task with that id. -/
theorem delete_then_list_never_returns_id (task_id : Int) (resp : StoreResp)
    (tasks : List Task)
    (hread : read_tasks resp = .ok tasks)
    (hnodup : (tasks.map Task.id).Nodup)
    (hmem : ∃ t ∈ tasks, t.id = task_id) :
    (delete_task task_id resp).1 = .ok "Task deleted successfully" ∧
    task_id ∉ (after tasks (delete_task task_id resp).2).map Task.id ∧
    (get_tasks (storeOf (after tasks (delete_task task_id resp).2))).1 =
      .ok (after tasks (delete_task task_id resp).2) := by
  obtain ⟨t1, hmem1, hid1⟩ := hmem
  cases hfind : tasks.find? (fun t => t.id == task_id) with
  | none =>
    have := find?_none_spec hfind t1 hmem1
    rw [hid1] at this
    simp at this
  | some t0 =>
    have hdelc : delete_core task_id tasks = some (tasks.erase t0) := by
      rw [delete_core, hfind]
    have hD : delete_task task_id resp =
        (.ok "Task deleted successfully", some (tasks.erase t0)) := by
      simp [delete_task, hread, hdelc]
    have haft : after tasks (delete_task task_id resp).2 = tasks.erase t0 := by
      rw [hD]; rfl
    rw [haft]
    refine ⟨by rw [hD], ?_, by simp [get_tasks, read_tasks_storeOf]⟩
    intro hmem'
    obtain ⟨x, hx, hxid⟩ := List.mem_map.mp hmem'
    exact delete_core_no_id hnodup hdelc x hx hxid

theorem delete_then_list_never_returns_id_witness :
    (delete_task 2 (storeOf [⟨1, "a", "s"⟩, ⟨2, "b", "s"⟩])).1 =
      .ok "Task deleted successfully" ∧
    (2 : Int) ∉ (after [⟨1, "a", "s"⟩, ⟨2, "b", "s"⟩]
      (delete_task 2 (storeOf [⟨1, "a", "s"⟩, ⟨2, "b", "s"⟩])).2).map Task.id :=
  have h := delete_then_list_never_returns_id 2
    (storeOf [⟨1, "a", "s"⟩, ⟨2, "b", "s"⟩]) [⟨1, "a", "s"⟩, ⟨2, "b", "s"⟩]
    rfl (by decide) ⟨⟨2, "b", "s"⟩, by decide, rfl⟩
  ⟨h.1, h.2.1⟩

/-- The ways the AI call can fail that Claim C5 enumerates: transport
failure, a non-JSON body, a falsy `success` flag, a missing `result` field,
or a missing `response` field inside `result`. -/
def ai_call_fails (r : AIResp) : Prop :=
  r = .transportFail ∨ r = .notJson ∨
  ∃ fields, r = .jsonVal (.obj fields) ∧
    (truthy (fields.lookup "success") = false ∨
     fields.lookup "result" = none ∨
     ∃ rfs, fields.lookup "result" = some (.obj rfs) ∧
       rfs.lookup "response" = none)

/-- Claim C5: for every TaskCreate input, if the AI call fails (transport
failure, non-success response flag, or missing response field),
suggestSteps returns the empty string, Create still succeeds, and the
returned task's title equals the input title unmodified. -/
theorem ai_failure_title_unmodified (t : TaskCreate) (ai : AIResp)
    (resp : StoreResp) (tasks : List Task)
    (hai : ai_call_fails ai)
    (hread : read_tasks resp = .ok tasks) :
    get_solution_for_task ai = .ok "" ∧
    create_task t ai resp =
      (.ok ⟨new_id tasks, t.title, t.status⟩,
       some (tasks ++ [⟨new_id tasks, t.title, t.status⟩])) := by
  have hsol : get_solution_for_task ai = .ok "" := by
    rcases hai with h | h | ⟨fields, hf, hcase⟩
    · subst h; rfl
    · subst h; rfl
    · subst hf
      rcases hcase with hsucc | hres | ⟨rfs, hres, hresp⟩
      · simp [get_solution_for_task, hsucc]
      · cases htr : truthy (fields.lookup "success") with
        | false => simp [get_solution_for_task, htr]
        | true => simp [get_solution_for_task, htr, hres]
      · cases htr : truthy (fields.lookup "success") with
        | false => simp [get_solution_for_task, htr]
        | true => simp [get_solution_for_task, htr, hres, hresp]
  have hen : enrich t.title "" = t.title := by simp [enrich]
  refine ⟨hsol, ?_⟩
  simp [create_task, hsol, hread, create_core, hen]

theorem ai_failure_title_unmodified_witness :
    get_solution_for_task (.jsonVal (.obj [("success", .bool false)])) = .ok "" ∧
    create_task ⟨"T", "todo"⟩ (.jsonVal (.obj [("success", .bool false)]))
      (storeOf []) = (.ok ⟨1, "T", "todo"⟩, some [⟨1, "T", "todo"⟩]) :=
  have h := ai_failure_title_unmodified ⟨"T", "todo"⟩
    (.jsonVal (.obj [("success", .bool false)])) (storeOf []) []
    (Or.inr (Or.inr ⟨[("success", .bool false)], rfl, Or.inl rfl⟩)) rfl
  ⟨h.1, h.2⟩

/-- Claim C8: if the store's response is valid JSON but an object with no
"record" field, readAll returns the empty task list rather than failing,
and every handler behaves as if the stored list were empty. -/
theorem missing_record_reads_empty (fields : List (String × Json))
    (h : fields.lookup "record" = none) :
    read_tasks (.jsonVal (.obj fields)) = .ok [] ∧
    get_tasks (.jsonVal (.obj fields)) = get_tasks (storeOf []) ∧
    (∀ tid u, update_task tid u (.jsonVal (.obj fields)) =
      update_task tid u (storeOf [])) ∧
    (∀ tid, delete_task tid (.jsonVal (.obj fields)) =
      delete_task tid (storeOf [])) ∧
    (∀ t ai, create_task t ai (.jsonVal (.obj fields)) =
      create_task t ai (storeOf [])) := by
  have hread : read_tasks (.jsonVal (.obj fields)) = .ok [] := by
    simp [read_tasks, h, parseTaskList, parseTasks]
  have hread0 : read_tasks (storeOf []) = .ok [] := read_tasks_storeOf []
  refine ⟨hread, ?_, ?_, ?_, ?_⟩
  · simp [get_tasks, hread, hread0]
  · intro tid u; simp [update_task, hread, hread0]
  · intro tid; simp [delete_task, hread, hread0]
  · intro t ai
    cases hai : get_solution_for_task ai with
    | error e => simp [create_task, hai]
    | ok s => simp [create_task, hai, hread, hread0]

theorem missing_record_reads_empty_witness :
    read_tasks (.jsonVal (.obj [("x", .null)])) = .ok [] ∧
    update_task 3 ⟨"t", "s"⟩ (.jsonVal (.obj [("x", .null)])) =
      update_task 3 ⟨"t", "s"⟩ (storeOf []) :=
  ⟨(missing_record_reads_empty [("x", .null)] rfl).1,
   (missing_record_reads_empty [("x", .null)] rfl).2.2.1 3 ⟨"t", "s"⟩⟩

/-- Claim C9: for every non-empty stored task list, whatever its contents,
the id Create assigns is `max existing + 1`, strictly greater than every id
already in the list; hence Create preserves pairwise-distinct ids. -/
theorem create_id_dominates (t : TaskCreate) (sol : String) (tasks : List Task)
    (hne : tasks ≠ []) :
    (∀ u ∈ tasks, u.id < (create_core t sol tasks).1.id) ∧
    (create_core t sol tasks).1.id = maxId tasks + 1 ∧
    ((tasks.map Task.id).Nodup →
      (((create_core t sol tasks).2).map Task.id).Nodup) := by
  have hie : tasks.isEmpty = false := by
    cases tasks with
    | nil => exact absurd rfl hne
    | cons a l => rfl
  refine ⟨fun u hu => id_lt_new_id hu, ?_, fun hnd => ?_⟩
  · show new_id tasks = maxId tasks + 1
    rw [new_id, hie]
    simp
  · simp only [create_core, List.map_append, List.map_cons, List.map_nil]
    rw [List.nodup_append]
    refine ⟨hnd, List.nodup_singleton _, fun a ha hb => ?_⟩
    obtain ⟨u, hu, rfl⟩ := List.mem_map.mp ha
    have hba : u.id = new_id tasks := by simpa using hb
    exact absurd hba (ne_of_lt (id_lt_new_id hu))

theorem create_id_dominates_witness :
    (create_core ⟨"t", "s"⟩ "" [⟨3, "a", "b"⟩]).1.id = maxId [⟨3, "a", "b"⟩] + 1 ∧
    (((create_core ⟨"t", "s"⟩ "" [⟨3, "a", "b"⟩]).2).map Task.id).Nodup :=
  have h := create_id_dominates ⟨"t", "s"⟩ "" [⟨3, "a", "b"⟩] (by decide)
  ⟨h.2.1, h.2.2 (by decide)⟩

end TaskTracker
